import Mathlib

/-!
Verification of the kersteg LSB-steganography tool (src/main.rs).

The development shallowly embeds the pixel codec (`process_pixel`), the
compatibility check (`check_compatibility`), and the two buffer transforms
(`perform_lsb_steganography`, `decode_lsb_steganography`).  Channel values
are modelled as `Nat`; all claims quantify over the u8 range [0, 255].
The rayon parallel loop is modelled as a fold over an arbitrary schedule
(a permutation of the pixel indices), each step writing a disjoint
3-byte slice of the shared output buffer, exactly as the source keys the
write by the pixel index `i`.  The output allocation size
`(width * height * 3) as usize` is computed by the source in u32, so the
embedding takes it modulo 2^32.
-/

set_option maxRecDepth 100000

namespace Kersteg

/-- `const MASK_ENCODING: u8 = 0b1111_1110;` -/
def MASK_ENCODING : Nat := 0b11111110

/-- `const MASK_DECODING: u8 = 0b0000_0001;` -/
def MASK_DECODING : Nat := 0b00000001

/-- `const SHIFT: u8 = 7;` -/
def SHIFT : Nat := 7

/-- A pixel: `Rgb<u8>`, an ordered triple of channel values. -/
structure Rgb where
  c0 : Nat
  c1 : Nat
  c2 : Nat
deriving DecidableEq, Repr

/-- The per-channel body of the `for i in 0..3` loop of `process_pixel`:
encoding computes `(decoy & MASK_ENCODING) | (secret >> SHIFT)`, decoding
computes `(secret & MASK_DECODING) << SHIFT`. -/
def processChannel (secret decoy : Nat) (encoding : Bool) : Nat :=
  let mask := if encoding then MASK_ENCODING else MASK_DECODING
  if encoding then
    (decoy &&& mask) ||| (secret >>> SHIFT)
  else
    (secret &&& mask) <<< SHIFT

/-- `fn process_pixel(secret_pixel: Rgb<u8>, decoy_pixel: Rgb<u8>, encoding: bool) -> Rgb<u8>`:
applies the channel rule to each of the three channels. -/
def process_pixel (secret_pixel decoy_pixel : Rgb) (encoding : Bool) : Rgb :=
  ⟨processChannel secret_pixel.c0 decoy_pixel.c0 encoding,
   processChannel secret_pixel.c1 decoy_pixel.c1 encoding,
   processChannel secret_pixel.c2 decoy_pixel.c2 encoding⟩

/-- `RgbImage`: a (width, height) pair together with the flat byte buffer of
its pixel data (container of the `ImageBuffer`). -/
structure RgbImage where
  width : Nat
  height : Nat
  data : List Nat
deriving DecidableEq, Repr

/-- Modelled from the spec: `RgbImage::from_raw` (image crate, not under src/)
builds a buffer from raw bytes and "must be rejected" on length mismatch —
it succeeds exactly when the byte length equals width × height × 3. -/
def from_raw (w h : Nat) (data : List Nat) : Option RgbImage :=
  if data.length = w * h * 3 then some ⟨w, h, data⟩ else none

/-- Grouping of a flat byte buffer into pixels, as `img.pixels()` iterates
the container in 3-byte channel triples. -/
def listToPixels : List Nat → List Rgb
  | r :: g :: b :: rest => ⟨r, g, b⟩ :: listToPixels rest
  | _ => []

/-- `img.pixels().cloned().collect()` -/
def RgbImage.pixels (img : RgbImage) : List Rgb := listToPixels img.data

/-- `processed_pixel.channels()` — the three bytes of a pixel. -/
def channels (p : Rgb) : List Nat := [p.c0, p.c1, p.c2]

/-- `fn check_compatibility(...)`: errors iff the two dimension pairs differ. -/
def check_compatibility (secret_img decoy_img : RgbImage) : Except String Unit :=
  if (secret_img.width, secret_img.height) ≠ (decoy_img.width, decoy_img.height) then
    Except.error "Error: Images must be the same size for LSB steganography."
  else
    Except.ok ()

/-- `output[i*3..i*3+3].copy_from_slice(&processed_pixel.channels())`:
writes the three channel bytes at offset `start`; fails (models the slice
panic) iff the range is out of bounds. -/
def writeSlice3 (buf : List Nat) (start : Nat) (p : Rgb) : Option (List Nat) :=
  if start + 3 ≤ buf.length then
    some (((buf.set start p.c0).set (start + 1) p.c1).set (start + 2) p.c2)
  else
    none

/-- One unit of work of the encode `par_iter` loop at pixel index `i`:
look up the secret and decoy pixels, process, and write the 3-byte slice.
`none` models a panic (out-of-bounds index or slice). -/
def encodeStep (secretPx decoyPx : List Rgb) (acc : Option (List Nat)) (i : Nat) :
    Option (List Nat) := do
  let s ← secretPx[i]?
  let d ← decoyPx[i]?
  let buf ← acc
  writeSlice3 buf (i * 3) (process_pixel s d true)

/-- One unit of work of the decode `par_iter` loop at pixel index `i`:
the secondary argument is the placeholder `Rgb([0; 3])`. -/
def decodeStep (encodedPx : List Rgb) (acc : Option (List Nat)) (i : Nat) :
    Option (List Nat) := do
  let p ← encodedPx[i]?
  let buf ← acc
  writeSlice3 buf (i * 3) (process_pixel p ⟨0, 0, 0⟩ false)

/-- Executes the per-pixel units of work in the order given by `order`
(the schedule chosen by the parallel runtime) over the shared output
buffer `init`. -/
def runSchedule (step : Option (List Nat) → Nat → Option (List Nat))
    (init : List Nat) (order : List Nat) : Option (List Nat) :=
  order.foldl step (some init)

/-- 2^32: the modulus of the u32 arithmetic in which the source computes
the allocation size `width * height * 3` (`width` and `height` are u32),
so the size wraps modulo 2^32 before the `as usize` conversion. -/
def U32_MOD : Nat := 4294967296

/-- The tail of both transforms: a `none` loop result models a panic of
the parallel loop (out-of-bounds index or slice write); a `some raw`
result is reassembled with `RgbImage::from_raw(width, height,
raw_output).ok_or("Failed to create image from raw data.")`. -/
def assembleOutput (w h : Nat) (result : Option (List Nat)) :
    Except String RgbImage :=
  match result with
  | none => Except.error "panic: index out of bounds"
  | some raw =>
    match from_raw w h raw with
    | some img => Except.ok img
    | none => Except.error "Failed to create image from raw data."

/-- `fn perform_lsb_steganography`: allocates
`vec![0u8; (width * height * 3) as usize]` — the size multiplication is
u32 arithmetic and wraps modulo 2^32 — collects the pixel vectors, runs
the per-pixel loop over every index of `secret_pixels` (the sequential
schedule is the reference semantics), and reassembles via `from_raw`. -/
def perform_lsb_steganography (secret_img decoy_img : RgbImage) :
    Except String RgbImage :=
  let w := secret_img.width
  let h := secret_img.height
  let init := List.replicate (w * h * 3 % U32_MOD) 0
  let secret_pixels := secret_img.pixels
  let decoy_pixels := decoy_img.pixels
  assembleOutput w h (runSchedule (encodeStep secret_pixels decoy_pixels) init
    (List.range secret_pixels.length))

/-- `fn decode_lsb_steganography`: same shape with a single input buffer,
including the u32 wrap of the allocation size. -/
def decode_lsb_steganography (encoded_img : RgbImage) : Except String RgbImage :=
  let w := encoded_img.width
  let h := encoded_img.height
  let init := List.replicate (w * h * 3 % U32_MOD) 0
  let encoded_pixels := encoded_img.pixels
  assembleOutput w h (runSchedule (decodeStep encoded_pixels) init
    (List.range encoded_pixels.length))

/-- The encode branch of `main` (args.len() == 4) after the two loads,
parameterized by the transform so that independence from it can be
stated: `check_compatibility(...)?` runs strictly before the transform. -/
def encodeMainWith (transform : RgbImage → RgbImage → Except String RgbImage)
    (secret_img decoy_img : RgbImage) : Except String RgbImage := do
  check_compatibility secret_img decoy_img
  transform secret_img decoy_img

/-- The encode branch of `main` with the actual transform. -/
def encodeMain : RgbImage → RgbImage → Except String RgbImage :=
  encodeMainWith perform_lsb_steganography

/-- Entry of a raw byte buffer into the typed pixel-buffer world,
parameterized by the transform applied afterwards: construction via
`from_raw` validates the length before any per-pixel work. -/
def transformFromRaw (w h : Nat) (data : List Nat)
    (transform : RgbImage → Except String RgbImage) : Except String RgbImage :=
  match from_raw w h data with
  | some img => transform img
  | none => Except.error "Failed to create image from raw data."

/-- All three channels of a pixel are 8-bit values. -/
def Rgb.valid (p : Rgb) : Prop := p.c0 < 256 ∧ p.c1 < 256 ∧ p.c2 < 256

instance (p : Rgb) : Decidable p.valid := by
  unfold Rgb.valid; infer_instance

/-! ### Channel-level helper lemmas -/

lemma processChannel_true (a b : Nat) :
    processChannel a b true = (b &&& 254) ||| (a >>> 7) := rfl

lemma processChannel_false (a b : Nat) :
    processChannel a b false = (a &&& 1) <<< 7 := rfl

lemma shiftRight7_le_one : ∀ a < 256, a >>> 7 ≤ 1 := by decide

lemma and128_eq_shift : ∀ a < 256, a &&& 128 = (a >>> 7) <<< 7 := by decide

lemma decodeChannel_encodeChannel_zero :
    ∀ b < 256, ((((b &&& 254) ||| 0) &&& 1) <<< 7) = 0 := by decide

lemma decodeChannel_encodeChannel_one :
    ∀ b < 256, ((((b &&& 254) ||| 1) &&& 1) <<< 7) = 128 := by decide

lemma decodeChannel_encodeChannel (a b d : Nat) (ha : a < 256) (hb : b < 256) :
    processChannel (processChannel a b true) d false = a &&& 128 := by
  have h1 := shiftRight7_le_one a ha
  have h2 := and128_eq_shift a ha
  rw [processChannel_true, processChannel_false, h2]
  interval_cases h : (a >>> 7)
  · exact decodeChannel_encodeChannel_zero b hb
  · exact decodeChannel_encodeChannel_one b hb

lemma encodeChannel_preserves_top7_zero :
    ∀ b < 256, (((b &&& 254) ||| 0) &&& 254) = b &&& 254 := by decide

lemma encodeChannel_preserves_top7_one :
    ∀ b < 256, (((b &&& 254) ||| 1) &&& 254) = b &&& 254 := by decide

lemma encodeChannel_preserves_top7 (a b : Nat) (ha : a < 256) (hb : b < 256) :
    processChannel a b true &&& MASK_ENCODING = b &&& MASK_ENCODING := by
  have h1 := shiftRight7_le_one a ha
  rw [processChannel_true, MASK_ENCODING]
  show ((b &&& 254) ||| (a >>> 7)) &&& 254 = b &&& 254
  interval_cases h : (a >>> 7)
  · exact encodeChannel_preserves_top7_zero b hb
  · exact encodeChannel_preserves_top7_one b hb

lemma decodeChannel_range (x d : Nat) (hx : x < 256) : processChannel x d false = 0 ∨
    processChannel x d false = 128 := by
  rw [processChannel_false]
  revert hx; revert x; decide

/-! ### Buffer-level helper lemmas -/

lemma listToPixels_length : ∀ l : List Nat, (listToPixels l).length = l.length / 3
  | [] => rfl
  | [_] => by simp [listToPixels]
  | [_, _] => by simp [listToPixels]
  | _ :: _ :: _ :: rest => by
    simp only [listToPixels, List.length_cons, listToPixels_length rest]
    omega

lemma writeSlice3_length {buf out : List Nat} {start : Nat} {p : Rgb}
    (h : writeSlice3 buf start p = some out) : out.length = buf.length := by
  unfold writeSlice3 at h
  split at h
  · cases h
    simp [List.length_set]
  · cases h

lemma writeSlice3_bind_comm (buf : List Nat) (a b : Nat) (p q : Rgb)
    (hdisj : a + 3 ≤ b ∨ b + 3 ≤ a) :
    (writeSlice3 buf a p).bind (fun x => writeSlice3 x b q) =
    (writeSlice3 buf b q).bind (fun x => writeSlice3 x a p) := by
  unfold writeSlice3
  by_cases ha : a + 3 ≤ buf.length <;> by_cases hb2 : b + 3 ≤ buf.length <;>
    simp [ha, hb2, List.length_set]
  rw [List.set_comm p.c2 q.c0 _ (by omega : a + 2 ≠ b),
      List.set_comm p.c1 q.c0 _ (by omega : a + 1 ≠ b),
      List.set_comm p.c0 q.c0 _ (by omega : a ≠ b),
      List.set_comm p.c2 q.c1 _ (by omega : a + 2 ≠ b + 1),
      List.set_comm p.c1 q.c1 _ (by omega : a + 1 ≠ b + 1),
      List.set_comm p.c0 q.c1 _ (by omega : a ≠ b + 1),
      List.set_comm p.c2 q.c2 _ (by omega : a + 2 ≠ b + 2),
      List.set_comm p.c1 q.c2 _ (by omega : a + 1 ≠ b + 2),
      List.set_comm p.c0 q.c2 _ (by omega : a ≠ b + 2)]

lemma encodeStep_comm (sPx dPx : List Rgb) (acc : Option (List Nat)) (i j : Nat) :
    encodeStep sPx dPx (encodeStep sPx dPx acc i) j =
    encodeStep sPx dPx (encodeStep sPx dPx acc j) i := by
  by_cases hij : i = j
  · subst hij; rfl
  rcases hsi : sPx[i]? with _ | si <;> rcases hdi : dPx[i]? with _ | di <;>
    rcases hsj : sPx[j]? with _ | sj <;> rcases hdj : dPx[j]? with _ | dj <;>
      simp [encodeStep, hsi, hdi, hsj, hdj]
  cases acc with
  | none => rfl
  | some buf =>
    simp only [Option.some_bind]
    exact writeSlice3_bind_comm buf (i * 3) (j * 3) _ _ (by omega)

lemma decodeStep_comm (ePx : List Rgb) (acc : Option (List Nat)) (i j : Nat) :
    decodeStep ePx (decodeStep ePx acc i) j =
    decodeStep ePx (decodeStep ePx acc j) i := by
  by_cases hij : i = j
  · subst hij; rfl
  rcases hpi : ePx[i]? with _ | pi <;> rcases hpj : ePx[j]? with _ | pj <;>
    simp [decodeStep, hpi, hpj]
  cases acc with
  | none => rfl
  | some buf =>
    simp only [Option.some_bind]
    exact writeSlice3_bind_comm buf (i * 3) (j * 3) _ _ (by omega)

lemma runSchedule_perm {step : Option (List Nat) → Nat → Option (List Nat)}
    (comm : ∀ acc i j, step (step acc i) j = step (step acc j) i)
    {order ref : List Nat} (h : order.Perm ref) (init : List Nat) :
    runSchedule step init order = runSchedule step init ref :=
  h.foldl_eq' (fun x _ y _ z => comm z x y) (some init)

lemma foldl_encodeStep_some (sPx dPx : List Rgb) (order : List Nat) :
    ∀ buf : List Nat,
      (∀ i ∈ order, i < sPx.length ∧ i < dPx.length ∧ i * 3 + 3 ≤ buf.length) →
      ∃ out, List.foldl (encodeStep sPx dPx) (some buf) order = some out ∧
        out.length = buf.length := by
  induction order with
  | nil => exact fun buf _ => ⟨buf, rfl, rfl⟩
  | cons i rest ih =>
    intro buf hbound
    obtain ⟨his, hid, hiw⟩ := hbound i (List.mem_cons_self i rest)
    have hstep : encodeStep sPx dPx (some buf) i =
        writeSlice3 buf (i * 3) (process_pixel sPx[i] dPx[i] true) := by
      simp [encodeStep, List.getElem?_eq_getElem his, List.getElem?_eq_getElem hid]
    obtain ⟨buf', hbuf'⟩ :
        ∃ b, writeSlice3 buf (i * 3) (process_pixel sPx[i] dPx[i] true) = some b := by
      unfold writeSlice3
      rw [if_pos hiw]
      exact ⟨_, rfl⟩
    have hlen : buf'.length = buf.length := writeSlice3_length hbuf'
    rw [List.foldl_cons, hstep, hbuf']
    obtain ⟨out, hout, hlen2⟩ := ih buf' (fun j hj => by
      obtain ⟨h1, h2, h3⟩ := hbound j (List.mem_cons_of_mem i hj)
      exact ⟨h1, h2, by rw [hlen]; exact h3⟩)
    exact ⟨out, hout, by rw [hlen2, hlen]⟩

lemma foldl_decodeStep_some (ePx : List Rgb) (order : List Nat) :
    ∀ buf : List Nat,
      (∀ i ∈ order, i < ePx.length ∧ i * 3 + 3 ≤ buf.length) →
      ∃ out, List.foldl (decodeStep ePx) (some buf) order = some out ∧
        out.length = buf.length := by
  induction order with
  | nil => exact fun buf _ => ⟨buf, rfl, rfl⟩
  | cons i rest ih =>
    intro buf hbound
    obtain ⟨hie, hiw⟩ := hbound i (List.mem_cons_self i rest)
    have hstep : decodeStep ePx (some buf) i =
        writeSlice3 buf (i * 3) (process_pixel ePx[i] ⟨0, 0, 0⟩ false) := by
      simp [decodeStep, List.getElem?_eq_getElem hie]
    obtain ⟨buf', hbuf'⟩ :
        ∃ b, writeSlice3 buf (i * 3) (process_pixel ePx[i] ⟨0, 0, 0⟩ false) = some b := by
      unfold writeSlice3
      rw [if_pos hiw]
      exact ⟨_, rfl⟩
    have hlen : buf'.length = buf.length := writeSlice3_length hbuf'
    rw [List.foldl_cons, hstep, hbuf']
    obtain ⟨out, hout, hlen2⟩ := ih buf' (fun j hj => by
      obtain ⟨h1, h2⟩ := hbound j (List.mem_cons_of_mem i hj)
      exact ⟨h1, by rw [hlen]; exact h2⟩)
    exact ⟨out, hout, by rw [hlen2, hlen]⟩

lemma perform_lsb_steganography_eq (s d : RgbImage) :
    perform_lsb_steganography s d =
      assembleOutput s.width s.height
        (List.foldl (encodeStep s.pixels d.pixels)
          (some (List.replicate (s.width * s.height * 3 % U32_MOD) 0))
          (List.range s.pixels.length)) := rfl

lemma assembleOutput_none (w h : Nat) :
    assembleOutput w h none = Except.error "panic: index out of bounds" := rfl

lemma assembleOutput_of_from_raw (w h : Nat) (raw : List Nat) (img : RgbImage)
    (hfr : from_raw w h raw = some img) :
    assembleOutput w h (some raw) = Except.ok img := by
  simp [assembleOutput, hfr]

lemma encodeStep_none (sPx dPx : List Rgb) (i : Nat) :
    encodeStep sPx dPx none i = none := by
  rcases hs : sPx[i]? with _ | s <;> rcases hd : dPx[i]? with _ | d <;>
    simp [encodeStep, hs, hd]

lemma foldl_encodeStep_none (sPx dPx : List Rgb) (order : List Nat) :
    List.foldl (encodeStep sPx dPx) none order = none := by
  induction order with
  | nil => rfl
  | cons i rest ih =>
    rw [List.foldl_cons, encodeStep_none]
    exact ih

/-! ### Claim theorems: the pixel codec -/

/-- C1: for all channel values a, b in [0,255], decoding the result of
encoding pixel a into pixel b (with an arbitrary placeholder secondary
pixel d) yields exactly a's top bit on every channel, all other bits
zero. -/
theorem roundtrip_recovers_top_bit (a b d : Rgb) (ha : a.valid) (hb : b.valid) :
    process_pixel (process_pixel a b true) d false =
      ⟨a.c0 &&& 0b10000000, a.c1 &&& 0b10000000, a.c2 &&& 0b10000000⟩ := by
  obtain ⟨ha0, ha1, ha2⟩ := ha
  obtain ⟨hb0, hb1, hb2⟩ := hb
  simp only [process_pixel, Rgb.mk.injEq]
  exact ⟨decodeChannel_encodeChannel _ _ _ ha0 hb0,
         decodeChannel_encodeChannel _ _ _ ha1 hb1,
         decodeChannel_encodeChannel _ _ _ ha2 hb2⟩

theorem roundtrip_recovers_top_bit_witness :
    (⟨240, 2, 255⟩ : Rgb).valid ∧ (⟨3, 7, 0⟩ : Rgb).valid ∧
    process_pixel (process_pixel ⟨240, 2, 255⟩ ⟨3, 7, 0⟩ true) ⟨9, 9, 9⟩ false =
      ⟨128, 0, 128⟩ :=
  ⟨by decide, by decide, by
    rw [roundtrip_recovers_top_bit ⟨240, 2, 255⟩ ⟨3, 7, 0⟩ ⟨9, 9, 9⟩ (by decide) (by decide)]
    decide⟩

/-- C2: for every secret pixel a and decoy pixel b with 8-bit channels, the
encode transform returns exactly `(b & 0b1111_1110) | (a >> 7)` applied
identically and independently to each of the 3 channels. -/
theorem encode_rule (a b : Rgb) (_ha : a.valid) (_hb : b.valid) :
    process_pixel a b true =
      ⟨(b.c0 &&& 0b11111110) ||| (a.c0 >>> 7),
       (b.c1 &&& 0b11111110) ||| (a.c1 >>> 7),
       (b.c2 &&& 0b11111110) ||| (a.c2 >>> 7)⟩ := rfl

theorem encode_rule_witness :
    (⟨240, 2, 255⟩ : Rgb).valid ∧ (⟨3, 7, 0⟩ : Rgb).valid ∧
    process_pixel ⟨240, 2, 255⟩ ⟨3, 7, 0⟩ true =
      ⟨(3 &&& 0b11111110) ||| (240 >>> 7),
       (7 &&& 0b11111110) ||| (2 >>> 7),
       (0 &&& 0b11111110) ||| (255 >>> 7)⟩ :=
  ⟨by decide, by decide, encode_rule ⟨240, 2, 255⟩ ⟨3, 7, 0⟩ (by decide) (by decide)⟩

/-- C3: for every encoded pixel x with 8-bit channels (and any secondary
pixel d), the decode transform returns exactly `(x & 0b0000_0001) << 7`
per channel, so every decoded channel is 0 or 128, and the lower 7 bits
of every decoded channel are zero. -/
theorem decode_rule (x d : Rgb) (hx : x.valid) :
    process_pixel x d false =
      ⟨(x.c0 &&& 0b00000001) <<< 7,
       (x.c1 &&& 0b00000001) <<< 7,
       (x.c2 &&& 0b00000001) <<< 7⟩ ∧
    ∀ c ∈ channels (process_pixel x d false), (c = 0 ∨ c = 128) ∧ c &&& 0b01111111 = 0 := by
  obtain ⟨hx0, hx1, hx2⟩ := hx
  refine ⟨rfl, ?_⟩
  intro c hc
  simp only [channels, process_pixel, List.mem_cons, List.not_mem_nil, or_false] at hc
  have hrange : c = 0 ∨ c = 128 := by
    rcases hc with h | h | h <;> rw [h]
    · exact decodeChannel_range _ _ hx0
    · exact decodeChannel_range _ _ hx1
    · exact decodeChannel_range _ _ hx2
  refine ⟨hrange, ?_⟩
  rcases hrange with h | h <;> rw [h] <;> decide

theorem decode_rule_witness :
    (⟨3, 128, 255⟩ : Rgb).valid ∧
    (process_pixel ⟨3, 128, 255⟩ ⟨5, 5, 5⟩ false =
      ⟨(3 &&& 0b00000001) <<< 7,
       (128 &&& 0b00000001) <<< 7,
       (255 &&& 0b00000001) <<< 7⟩ ∧
    ∀ c ∈ channels (process_pixel ⟨3, 128, 255⟩ ⟨5, 5, 5⟩ false),
      (c = 0 ∨ c = 128) ∧ c &&& 0b01111111 = 0) :=
  ⟨by decide, decode_rule ⟨3, 128, 255⟩ ⟨5, 5, 5⟩ (by decide)⟩

/-- C4: for every secret pixel a and decoy pixel b with 8-bit channels,
encoding preserves the decoy's top 7 bits on every channel: only the
least-significant bit of the cover channel can change. -/
theorem encode_preserves_cover_top7 (a b : Rgb) (ha : a.valid) (hb : b.valid) :
    (process_pixel a b true).c0 &&& MASK_ENCODING = b.c0 &&& MASK_ENCODING ∧
    (process_pixel a b true).c1 &&& MASK_ENCODING = b.c1 &&& MASK_ENCODING ∧
    (process_pixel a b true).c2 &&& MASK_ENCODING = b.c2 &&& MASK_ENCODING := by
  obtain ⟨ha0, ha1, ha2⟩ := ha
  obtain ⟨hb0, hb1, hb2⟩ := hb
  exact ⟨encodeChannel_preserves_top7 _ _ ha0 hb0,
         encodeChannel_preserves_top7 _ _ ha1 hb1,
         encodeChannel_preserves_top7 _ _ ha2 hb2⟩

theorem encode_preserves_cover_top7_witness :
    (⟨255, 129, 1⟩ : Rgb).valid ∧ (⟨0, 77, 200⟩ : Rgb).valid ∧
    ((process_pixel ⟨255, 129, 1⟩ ⟨0, 77, 200⟩ true).c0 &&& MASK_ENCODING =
        0 &&& MASK_ENCODING ∧
     (process_pixel ⟨255, 129, 1⟩ ⟨0, 77, 200⟩ true).c1 &&& MASK_ENCODING =
        77 &&& MASK_ENCODING ∧
     (process_pixel ⟨255, 129, 1⟩ ⟨0, 77, 200⟩ true).c2 &&& MASK_ENCODING =
        200 &&& MASK_ENCODING) :=
  ⟨by decide, by decide,
    encode_preserves_cover_top7 ⟨255, 129, 1⟩ ⟨0, 77, 200⟩ (by decide) (by decide)⟩

/-- C8: the decode transform ignores its secondary operand entirely: the
decoded output depends only on the encoded input pixel, not on the
placeholder argument. -/
theorem decode_ignores_secondary (p d1 d2 : Rgb) :
    process_pixel p d1 false = process_pixel p d2 false := rfl

/-- C9: decode is not idempotent: for every channel value x in [0,255]
with its LSB set, applying the decode channel rule twice differs from
applying it once. -/
theorem decode_not_idempotent (x : Nat) (hx : x < 256) (hlsb : x &&& 1 = 1) :
    processChannel (processChannel x 0 false) 0 false ≠ processChannel x 0 false := by
  revert x
  decide

theorem decode_not_idempotent_witness :
    (3 : Nat) < 256 ∧ (3 : Nat) &&& 1 = 1 ∧
    processChannel (processChannel 3 0 false) 0 false ≠ processChannel 3 0 false :=
  ⟨by decide, by decide, decode_not_idempotent 3 (by decide) (by decide)⟩

/-! ### Claim theorems: the buffer transforms -/

/-- C5: for every pair of images whose (width, height) dimensions differ,
the encode path fails with the compatibility error, and it does so for
every possible transform in place of `perform_lsb_steganography` — the
per-pixel transform is never attempted. -/
theorem encode_rejects_incompatible (s d : RgbImage)
    (h : (s.width, s.height) ≠ (d.width, d.height)) :
    check_compatibility s d =
      Except.error "Error: Images must be the same size for LSB steganography." ∧
    (∀ transform, encodeMainWith transform s d =
      Except.error "Error: Images must be the same size for LSB steganography.") ∧
    encodeMain s d =
      Except.error "Error: Images must be the same size for LSB steganography." := by
  have hc : check_compatibility s d =
      Except.error "Error: Images must be the same size for LSB steganography." := by
    unfold check_compatibility
    rw [if_pos h]
  have hm : ∀ transform : RgbImage → RgbImage → Except String RgbImage,
      encodeMainWith transform s d =
        Except.error "Error: Images must be the same size for LSB steganography." := by
    intro transform
    unfold encodeMainWith
    rw [hc]
    rfl
  exact ⟨hc, hm, hm perform_lsb_steganography⟩

theorem encode_rejects_incompatible_witness :
    ((⟨1, 1, [0, 0, 0]⟩ : RgbImage).width, (⟨1, 1, [0, 0, 0]⟩ : RgbImage).height) ≠
      ((⟨2, 1, [0, 0, 0, 0, 0, 0]⟩ : RgbImage).width,
       (⟨2, 1, [0, 0, 0, 0, 0, 0]⟩ : RgbImage).height) ∧
    encodeMain ⟨1, 1, [0, 0, 0]⟩ ⟨2, 1, [0, 0, 0, 0, 0, 0]⟩ =
      Except.error "Error: Images must be the same size for LSB steganography." :=
  ⟨by decide,
    (encode_rejects_incompatible ⟨1, 1, [0, 0, 0]⟩ ⟨2, 1, [0, 0, 0, 0, 0, 0]⟩
      (by decide)).2.2⟩

/-- C6: the result of the encode/decode mapping does not depend on the
schedule: running the per-pixel units of work in any order that is a
permutation of the pixel indices produces a buffer identical to the
sequential (in-index-order) reference map, for both the encode and the
decode step. -/
theorem parallel_equals_sequential (sPx dPx ePx : List Rgb)
    (initE initD : List Nat) (orderE orderD : List Nat)
    (hE : orderE.Perm (List.range sPx.length))
    (hD : orderD.Perm (List.range ePx.length)) :
    runSchedule (encodeStep sPx dPx) initE orderE =
      runSchedule (encodeStep sPx dPx) initE (List.range sPx.length) ∧
    runSchedule (decodeStep ePx) initD orderD =
      runSchedule (decodeStep ePx) initD (List.range ePx.length) :=
  ⟨runSchedule_perm (encodeStep_comm sPx dPx) hE initE,
   runSchedule_perm (decodeStep_comm ePx) hD initD⟩

theorem parallel_equals_sequential_witness :
    ([1, 0] : List Nat).Perm (List.range ([⟨255, 0, 1⟩, ⟨0, 2, 128⟩] : List Rgb).length) ∧
    ([1, 0] : List Nat).Perm (List.range ([⟨7, 8, 9⟩, ⟨1, 0, 255⟩] : List Rgb).length) ∧
    (runSchedule (encodeStep [⟨255, 0, 1⟩, ⟨0, 2, 128⟩] [⟨2, 3, 4⟩, ⟨5, 6, 7⟩])
        (List.replicate 6 0) [1, 0] =
      runSchedule (encodeStep [⟨255, 0, 1⟩, ⟨0, 2, 128⟩] [⟨2, 3, 4⟩, ⟨5, 6, 7⟩])
        (List.replicate 6 0)
        (List.range ([⟨255, 0, 1⟩, ⟨0, 2, 128⟩] : List Rgb).length) ∧
     runSchedule (decodeStep [⟨7, 8, 9⟩, ⟨1, 0, 255⟩]) (List.replicate 6 0) [1, 0] =
      runSchedule (decodeStep [⟨7, 8, 9⟩, ⟨1, 0, 255⟩]) (List.replicate 6 0)
        (List.range ([⟨7, 8, 9⟩, ⟨1, 0, 255⟩] : List Rgb).length)) :=
  ⟨by decide, by decide,
    parallel_equals_sequential [⟨255, 0, 1⟩, ⟨0, 2, 128⟩] [⟨2, 3, 4⟩, ⟨5, 6, 7⟩]
      [⟨7, 8, 9⟩, ⟨1, 0, 255⟩] (List.replicate 6 0) (List.replicate 6 0)
      [1, 0] [1, 0] (by decide) (by decide)⟩

/-- C7: a raw buffer whose pixel-sequence length differs from
width × height never reaches per-pixel work: `from_raw` rejects it, so
for every transform the pipeline stops with the construction error. -/
theorem length_mismatch_rejected (w h : Nat) (data : List Nat)
    (hlen : (listToPixels data).length ≠ w * h) :
    from_raw w h data = none ∧
    ∀ transform, transformFromRaw w h data transform =
      Except.error "Failed to create image from raw data." := by
  have hd : data.length ≠ w * h * 3 := by
    intro he
    apply hlen
    rw [listToPixels_length, he]
    omega
  have hfr : from_raw w h data = none := by
    unfold from_raw
    rw [if_neg hd]
  refine ⟨hfr, fun transform => ?_⟩
  unfold transformFromRaw
  rw [hfr]

theorem length_mismatch_rejected_witness :
    (listToPixels [9, 9, 9, 9, 9, 9]).length ≠ 1 * 1 ∧
    from_raw 1 1 [9, 9, 9, 9, 9, 9] = none ∧
    transformFromRaw 1 1 [9, 9, 9, 9, 9, 9] decode_lsb_steganography =
      Except.error "Failed to create image from raw data." :=
  ⟨by decide,
    (length_mismatch_rejected 1 1 [9, 9, 9, 9, 9, 9] (by decide)).1,
    (length_mismatch_rejected 1 1 [9, 9, 9, 9, 9, 9] (by decide)).2 decode_lsb_steganography⟩

/-- C10 counterexample: two identical (hence equal-dimension) inputs with
width = height = 65536 and a buffer of exactly width × height × 3 bytes
satisfy the claim's preconditions, yet the encode transform fails: the
u32 allocation size 65536 · 65536 · 3 = 3·2^32 wraps to 0, so the very
first 3-byte slice write is out of bounds and the program panics instead
of returning ok. -/
theorem transforms_never_fail_counterexample :
    (⟨65536, 65536, List.replicate 12884901888 0⟩ : RgbImage).data.length =
      65536 * 65536 * 3 ∧
    perform_lsb_steganography ⟨65536, 65536, List.replicate 12884901888 0⟩
        ⟨65536, 65536, List.replicate 12884901888 0⟩ =
      Except.error "panic: index out of bounds" ∧
    ¬ ∃ out, perform_lsb_steganography ⟨65536, 65536, List.replicate 12884901888 0⟩
        ⟨65536, 65536, List.replicate 12884901888 0⟩ = Except.ok out := by
  have hmod : (12884901888 : Nat) % U32_MOD = 0 := by norm_num [U32_MOD]
  have hpx : (listToPixels (List.replicate 12884901888 (0 : Nat))).length =
      4294967296 := by
    rw [listToPixels_length, List.length_replicate]
  obtain ⟨p, rest, hcons⟩ : ∃ p rest,
      listToPixels (List.replicate 12884901888 (0 : Nat)) = p :: rest := by
    rcases h : listToPixels (List.replicate 12884901888 (0 : Nat)) with _ | ⟨a, l⟩
    · rw [h] at hpx
      exact absurd hpx (by norm_num)
    · exact ⟨a, l, rfl⟩
  have h0 : encodeStep (listToPixels (List.replicate 12884901888 (0 : Nat)))
      (listToPixels (List.replicate 12884901888 (0 : Nat))) (some []) 0 = none := by
    rw [hcons]
    simp [encodeStep, writeSlice3]
  obtain ⟨tail, htail⟩ : ∃ tail, List.range 4294967296 = 0 :: tail :=
    ⟨List.map Nat.succ (List.range 4294967295), by
      rw [show (4294967296 : Nat) = 4294967295 + 1 by norm_num]
      exact List.range_succ_eq_map 4294967295⟩
  have hperf : perform_lsb_steganography ⟨65536, 65536, List.replicate 12884901888 0⟩
      ⟨65536, 65536, List.replicate 12884901888 0⟩ =
      Except.error "panic: index out of bounds" := by
    rw [perform_lsb_steganography_eq]
    simp only [RgbImage.pixels]
    rw [hpx, htail, hmod, List.replicate_zero, List.foldl_cons, h0, foldl_encodeStep_none,
      assembleOutput_none]
  refine ⟨by simp only [List.length_replicate], hperf, ?_⟩
  rintro ⟨out, hout⟩
  rw [hperf] at hout
  exact Except.noConfusion hout

/-- C10 (amended): under the preconditions that both input buffers
satisfy length = width × height × 3, the two encode inputs have equal
dimensions, and additionally width × height × 3 < 2^32 for each input —
so that the u32 multiplication computing the allocation size does not
wrap — the encode and decode transforms always return `ok`: every pixel
lookup and every 3-byte slice write is in bounds and the final
`from_raw` reassembly succeeds, so no error branch is reached. -/
theorem transforms_never_fail (s d e : RgbImage)
    (hs : s.data.length = s.width * s.height * 3)
    (hd : d.data.length = d.width * d.height * 3)
    (he : e.data.length = e.width * e.height * 3)
    (hw : s.width = d.width) (hh : s.height = d.height)
    (hsb : s.width * s.height * 3 < U32_MOD)
    (heb : e.width * e.height * 3 < U32_MOD) :
    (∃ out, perform_lsb_steganography s d = Except.ok out) ∧
    (∃ out, decode_lsb_steganography e = Except.ok out) := by
  constructor
  · have hsl : s.pixels.length = s.width * s.height := by
      rw [RgbImage.pixels, listToPixels_length, hs]
      omega
    have hdl : d.pixels.length = s.width * s.height := by
      rw [RgbImage.pixels, listToPixels_length, hd, ← hw, ← hh]
      omega
    obtain ⟨out, hout, hlen⟩ := foldl_encodeStep_some s.pixels d.pixels
      (List.range s.pixels.length)
      (List.replicate (s.width * s.height * 3 % U32_MOD) 0)
      (fun i hi => by
        rw [List.mem_range] at hi
        refine ⟨hi, ?_, ?_⟩
        · rw [hdl, ← hsl]
          exact hi
        · rw [List.length_replicate, Nat.mod_eq_of_lt hsb]
          rw [hsl] at hi
          omega)
    have hfr : from_raw s.width s.height out = some ⟨s.width, s.height, out⟩ := by
      unfold from_raw
      rw [if_pos (by rw [hlen, List.length_replicate, Nat.mod_eq_of_lt hsb])]
    simp only [perform_lsb_steganography, runSchedule]
    rw [hout]
    exact ⟨_, assembleOutput_of_from_raw _ _ _ _ hfr⟩
  · have hel : e.pixels.length = e.width * e.height := by
      rw [RgbImage.pixels, listToPixels_length, he]
      omega
    obtain ⟨out, hout, hlen⟩ := foldl_decodeStep_some e.pixels
      (List.range e.pixels.length)
      (List.replicate (e.width * e.height * 3 % U32_MOD) 0)
      (fun i hi => by
        rw [List.mem_range] at hi
        refine ⟨hi, ?_⟩
        rw [List.length_replicate, Nat.mod_eq_of_lt heb]
        rw [hel] at hi
        omega)
    have hfr : from_raw e.width e.height out = some ⟨e.width, e.height, out⟩ := by
      unfold from_raw
      rw [if_pos (by rw [hlen, List.length_replicate, Nat.mod_eq_of_lt heb])]
    simp only [decode_lsb_steganography, runSchedule]
    rw [hout]
    exact ⟨_, assembleOutput_of_from_raw _ _ _ _ hfr⟩

theorem transforms_never_fail_witness :
    (⟨1, 1, [255, 0, 128]⟩ : RgbImage).data.length = 1 * 1 * 3 ∧
    (⟨1, 1, [1, 2, 3]⟩ : RgbImage).data.length = 1 * 1 * 3 ∧
    (⟨1, 1, [1, 0, 255]⟩ : RgbImage).data.length = 1 * 1 * 3 ∧
    1 * 1 * 3 < U32_MOD ∧
    ((∃ out, perform_lsb_steganography ⟨1, 1, [255, 0, 128]⟩ ⟨1, 1, [1, 2, 3]⟩ =
        Except.ok out) ∧
     (∃ out, decode_lsb_steganography ⟨1, 1, [1, 0, 255]⟩ = Except.ok out)) :=
  ⟨by decide, by decide, by decide, by decide,
    transforms_never_fail ⟨1, 1, [255, 0, 128]⟩ ⟨1, 1, [1, 2, 3]⟩ ⟨1, 1, [1, 0, 255]⟩
      (by decide) (by decide) (by decide) rfl rfl (by decide) (by decide)⟩

end Kersteg
